import Mathlib

/-!
Verification development for the meritop task-graph framework.

The definitions below are a shallow embedding of the framework sources:
the etcd path layout (etcd_layout.go), the per-node framework
(framework.go: data-request HTTP handler, main loop, epoch watcher,
neighbor watchers, IncEpoch, occupyTask, FlagMetaToChild) and the
heartbeat / free-task utilities (pkg/etcdutil/healthy.go).  Machine
integers (uint64) are modelled as Nat with explicit bounds where
overflow matters; etcd is modelled as a partial map from key strings to
value strings; concurrent inputs (channel receipts, watch responses)
are modelled as explicit event lists.
-/

namespace Meritop

/-! ## Go strconv.ParseUint (bitSize 64)

The framework parses IDs and epochs with strconv.ParseUint.  The calls
use either base 10 (strict decimal) or base 0 (auto-detected base: an
0x/0X prefix means hex, 0b/0B binary, 0o/0O octal, a bare leading 0
octal, otherwise decimal; underscores are then allowed as digit
separators).  We embed ParseUint for bitSize 64.  Go reports range and
syntax failures through a non-nil error; every caller in this
repository only branches on err != nil, so all failures collapse to
none here.  Intermediate-overflow errors (the cutoff / n1 < n checks in
Go) are equivalent to the final exact value exceeding 2^64 - 1, because
appending digits is monotone; we therefore compare the exact Nat value
against maxUint64 at each step. -/

/-- Largest uint64 value; also the shutdown sentinel epoch of framework.go. -/
def maxUint64 : Nat := 2 ^ 64 - 1

/-- Go strconv lower(c): set the 0x20 bit, mapping ASCII uppercase to lowercase. -/
def lowerChar (c : Char) : Char :=
  Char.ofNat (c.toNat ||| 0x20)

/-- Digit value of a character as in the ParseUint loop: 0-9 are themselves,
letters (either case) are 10..35, anything else is rejected. -/
def digitVal (c : Char) : Option Nat :=
  if '0' ≤ c ∧ c ≤ '9' then some (c.toNat - '0'.toNat)
  else
    let l := lowerChar c
    if 'a' ≤ l ∧ l ≤ 'z' then some (l.toNat - 'a'.toNat + 10)
    else none

/-- The digit-accumulation loop of ParseUint. base0 records whether the
original base argument was 0, in which case underscores are skipped here
and validated separately afterwards. -/
def parseDigits (base : Nat) (base0 : Bool) : List Char → Nat → Option Nat
  | [], n => some n
  | c :: rest, n =>
    if c = '_' ∧ base0 then parseDigits base base0 rest n
    else
      match digitVal c with
      | none => none
      | some d =>
        if base ≤ d then none
        else if maxUint64 < n * base + d then none
        else parseDigits base base0 rest (n * base + d)

/-- Scanner for Go strconv underscoreOK.  saw tracks the class of the last
character: circumflex for the beginning, 0 for a digit or base prefix,
an underscore, or bang for anything else. -/
def underscoreScan (hex : Bool) : List Char → Char → Bool
  | [], saw => saw ≠ '_'
  | c :: rest, saw =>
    if ('0' ≤ c ∧ c ≤ '9') ∨ (hex ∧ 'a' ≤ lowerChar c ∧ lowerChar c ≤ 'f') then
      underscoreScan hex rest '0'
    else if c = '_' then
      if saw ≠ '0' then false else underscoreScan hex rest '_'
    else if saw = '_' then false
    else underscoreScan hex rest '!'

/-- Go strconv underscoreOK: underscores must sit between digits (or follow
a base prefix), checked on the original string. -/
def goUnderscoreOK (s : String) : Bool :=
  let cs :=
    match s.data with
    | c :: rest => if c = '-' ∨ c = '+' then rest else s.data
    | [] => s.data
  match cs with
  | '0' :: c2 :: rest =>
    if lowerChar c2 = 'b' ∨ lowerChar c2 = 'o' ∨ lowerChar c2 = 'x' then
      underscoreScan (lowerChar c2 = 'x') rest '0'
    else underscoreScan false cs '^'
  | _ => underscoreScan false cs '^'

/-- Embeds Go strconv.ParseUint(s, base, 64).  The framework calls it with
base 0 (auto-detected) or base 10 (strict decimal). -/
def goParseUint (s : String) (base : Nat) : Option Nat :=
  let cs := s.data
  if cs = [] then none
  else if 2 ≤ base ∧ base ≤ 36 then parseDigits base false cs 0
  else if base = 0 then
    let parsed :=
      match cs with
      | '0' :: c2 :: c3 :: rest =>
        if lowerChar c2 = 'b' then parseDigits 2 true (c3 :: rest) 0
        else if lowerChar c2 = 'o' then parseDigits 8 true (c3 :: rest) 0
        else if lowerChar c2 = 'x' then parseDigits 16 true (c3 :: rest) 0
        else parseDigits 8 true (c2 :: c3 :: rest) 0
      | '0' :: rest => parseDigits 8 true rest 0
      | _ => parseDigits 10 true cs 0
    match parsed with
    | none => none
    | some n => if goUnderscoreOK s then some n else none
  else none

/-! ## Go path helpers and the etcd layout (etcd_layout.go)

etcd_layout.go derives every coordination key with path.Join over the
job name, the fixed directory names and the decimal task ID
(strconv.FormatUint(taskID, 10), embedded as toString on Nat).  We
embed path.Clean with its standard element-stack formulation (skip
empty and dot elements, a dotdot pops a previous element, on a rooted
path a dotdot at the root is dropped), path.Join (skip leading empty
elements, join the rest with slashes, clean) and path.Base (strip
trailing slashes, keep everything after the last slash). -/

/-- Split a character list on slashes, as strings.SplitN with a slash
separator does (empty segments are kept). -/
def splitSlash : List Char → List (List Char)
  | [] => [[]]
  | c :: rest =>
    if c = '/' then [] :: splitSlash rest
    else
      match splitSlash rest with
      | [] => [[c]]
      | seg :: segs => (c :: seg) :: segs

/-- Join character-list segments with slashes (strings.Join with a slash
separator). -/
def joinSlash : List (List Char) → List Char
  | [] => []
  | [seg] => seg
  | seg :: segs => seg ++ '/' :: joinSlash segs

/-- Embeds Go path.Clean (element-stack formulation): skip empty and dot
elements, a dotdot pops the previous element and is dropped at the root
of a rooted path. -/
def pathClean (p : String) : String :=
  if p = "" then "."
  else
    let rooted : Bool :=
      match p.data with
      | '/' :: _ => true
      | _ => false
    let out := (splitSlash p.data).foldl
      (fun acc e =>
        if e = ([] : List Char) ∨ e = ['.'] then acc
        else if e = ['.', '.'] then
          match acc with
          | [] => if rooted then [] else [['.', '.']]
          | top :: below => if top = ['.', '.'] then e :: acc else below
        else e :: acc)
      []
    let res := (if rooted then ['/'] else []) ++ joinSlash out.reverse
    if res = [] then "." else ⟨res⟩

/-- Embeds Go path.Join: drop leading empty elements, join the rest with
slashes, then clean. -/
def pathJoin (elems : List String) : String :=
  match elems.dropWhile (fun e => e = "") with
  | [] => ""
  | rest => pathClean ⟨joinSlash (rest.map String.data)⟩

/-- Embeds Go path.Base: strip trailing slashes and keep the part after the
last remaining slash. -/
def pathBase (p : String) : String :=
  if p = "" then "."
  else
    let rcs := p.data.reverse.dropWhile (fun c => c = '/')
    if rcs = [] then "/"
    else ⟨(rcs.takeWhile (fun c => c ≠ '/')).reverse⟩

/-- Embeds JobEpochPath of etcd_layout.go. -/
def JobEpochPath (appName : String) : String :=
  pathJoin ["/", appName, "epoch"]

/-- Embeds TaskDirPath of etcd_layout.go. -/
def TaskDirPath (appName : String) : String :=
  pathJoin ["/", appName, "tasks"]

/-- Embeds TaskMasterPath of etcd_layout.go: the slot key tasks/id/0. -/
def TaskMasterPath (appName : String) (taskID : Nat) : String :=
  pathJoin ["/", appName, "tasks", toString taskID, "0"]

/-- Embeds ParentMetaPath of etcd_layout.go. -/
def ParentMetaPath (appName : String) (taskID : Nat) : String :=
  pathJoin ["/", appName, "tasks", toString taskID, "ParentMeta"]

/-- Embeds ChildMetaPath of etcd_layout.go. -/
def ChildMetaPath (appName : String) (taskID : Nat) : String :=
  pathJoin ["/", appName, "tasks", toString taskID, "ChildMeta"]

/-! ## The etcd store

The coordination store is modelled as a partial map from keys to string
values.  CompareAndSwap(key, value, ttl, prevValue, prevIndex) with a
prevValue condition succeeds exactly when the key currently holds
prevValue, in which case it atomically stores the new value. -/

/-- An etcd keyspace: keys to current values. -/
def Store : Type := String → Option String

/-- An unconditional etcd Set. -/
def storeSet (st : Store) (k v : String) : Store :=
  fun q => if q = k then some v else st q

/-- etcd CompareAndSwap on prevValue: some updated store on success, none on
a failed comparison (in which case nothing is written). -/
def storeCAS (st : Store) (k v prevV : String) : Option Store :=
  if st k = some prevV then some (storeSet st k v) else none

/-! ## Roles, topology and the task surface (framework.go)

The data-request handler consults the user topology to classify the
caller relative to the current epoch, and forwards to the serve methods
of the task.  Parents are checked before children, as in parentOrChild
of framework.go.  Response bodies are byte slices, modelled as lists of
byte values. -/

inductive taskRole where
  | roleNone
  | roleParent
  | roleChild
deriving DecidableEq, Repr

/-- The user topology interface: parent and child IDs per epoch. -/
structure Topology where
  GetParents : Nat → List Nat
  GetChildren : Nat → List Nat

/-- The slice of the Task interface used by the data-request handler. -/
structure Task where
  ServeAsParent : Nat → String → List Nat
  ServeAsChild : Nat → String → List Nat

/-- The framework fields read by the data-request handler. -/
structure Framework where
  name : String
  taskID : Nat
  epoch : Nat
  topology : Topology
  task : Task

/-- Embeds framework.parentOrChild: scan the parents of the current epoch
first, then the children, else no role. -/
def parentOrChild (f : Framework) (taskID : Nat) : taskRole :=
  if (f.topology.GetParents f.epoch).contains taskID then .roleParent
  else if (f.topology.GetChildren f.epoch).contains taskID then .roleChild
  else .roleNone

/-! ## The data-request HTTP handler (dataReqHandler.ServeHTTP) -/

/-- Embeds the dataRequestPrefix constant of framework.go. -/
def dataRequestPath : String := "/datareq"

/-- Embeds the dataRequestTaskID query key constant. -/
def dataRequestTaskIDKey : String := "taskID"

/-- Embeds the dataRequestReq query key constant. -/
def dataRequestReqKey : String := "req"

/-- An inbound HTTP request: the URL path and the decoded query pairs. -/
structure HTTPRequest where
  path : String
  query : List (String × String)

/-- Embeds url.Values.Get: the first value associated to the key, or the
empty string when the key is absent. -/
def queryGet (q : List (String × String)) (key : String) : String :=
  match q.find? (fun kv => kv.fst = key) with
  | some kv => kv.snd
  | none => ""

/-- The observable response: 200 with a raw byte body (w.Write with the
implicit 200 status), or http.Error with status 400 and a message. -/
inductive HTTPResponse where
  | ok (body : List Nat)
  | badRequest (msg : String)
deriving DecidableEq, Repr

/-- Embeds dataReqHandler.ServeHTTP: reject a wrong path with 400, parse the
taskID query value with ParseUint(s, 0, 64), classify the caller with
parentOrChild and serve with the matching task method, else 400. -/
def serveHTTP (f : Framework) (r : HTTPRequest) : HTTPResponse :=
  if r.path ≠ dataRequestPath then .badRequest "bad path"
  else
    let fromIDStr := queryGet r.query dataRequestTaskIDKey
    match goParseUint fromIDStr 0 with
    | none => .badRequest "taskID couldn\x27t be parsed"
    | some fromID =>
      let req := queryGet r.query dataRequestReqKey
      match parentOrChild f fromID with
      | .roleParent => .ok (f.task.ServeAsChild fromID req)
      | .roleChild => .ok (f.task.ServeAsParent fromID req)
      | .roleNone => .badRequest "taskID isn\x27t a parent or child of this task"

/-! ## IncEpoch (framework.IncEpoch)

IncEpoch issues CompareAndSwap(JobEpochPath(name), FormatUint(epoch+1),
0, FormatUint(epoch), 0) and calls log.Fatalf when the swap fails.  The
local epoch is a uint64, so the successor is taken modulo 2^64. -/

/-- Outcome of IncEpoch: the updated store, or a fatal node abort (log.Fatalf
exits the process without writing anything). -/
inductive IncEpochResult where
  | ok (st : Store)
  | fatal

/-- Embeds framework.IncEpoch. -/
def IncEpoch (name : String) (epoch : Nat) (st : Store) : IncEpochResult :=
  match storeCAS st (JobEpochPath name) (toString ((epoch + 1) % 2 ^ 64)) (toString epoch) with
  | some st2 => .ok st2
  | none => .fatal

/-! ## The main loop of framework.Start

After Init, the loop runs while the local epoch differs from the
shutdown sentinel; each iteration first calls task.SetEpoch with the
current epoch and then blocks on the epoch channel or the stop channel.
The channel receipts are modelled as an event list; an exhausted list
leaves the loop blocked on the select. -/

/-- A receipt on one of the two channels the main loop selects on. -/
inductive LoopEvent where
  | epochVal (e : Nat)
  | stopSig
deriving DecidableEq, Repr

/-- A task callback issued by Start, in order. -/
inductive TaskCall where
  | initCall (taskID : Nat)
  | setEpoch (e : Nat)
deriving DecidableEq, Repr

/-- Embeds the epoch loop of framework.Start: while epoch is not the
sentinel, call task.SetEpoch(epoch), then receive either a new epoch or
the stop signal. -/
def mainLoop (epoch : Nat) : List LoopEvent → List TaskCall
  | [] => if epoch = maxUint64 then [] else [.setEpoch epoch]
  | ev :: rest =>
    if epoch = maxUint64 then []
    else
      .setEpoch epoch ::
        match ev with
        | .epochVal e => mainLoop e rest
        | .stopSig => []

/-- The task calls issued by framework.Start from task.Init on: Init, then
the epoch loop. -/
def startCalls (taskID : Nat) (initialEpoch : Nat) (events : List LoopEvent) : List TaskCall :=
  .initCall taskID :: mainLoop initialEpoch events

/-! ## The epoch watcher (framework.watchEpoch)

The watcher goroutine receives etcd responses; actions other than set
and compareAndSwap are skipped; accepted values are parsed with
ParseUint(value, 10, 64), log.Fatal on a parse failure, and otherwise
sent into the epoch channel, which is created with capacity 1. -/

/-- An etcd watch response: its action, key, value and index. -/
structure EtcdResponse where
  action : String
  key : String
  value : String
  etcdIndex : Nat
deriving DecidableEq, Repr

/-- Embeds make(chan uint64, 1) for the epoch channel in watchEpoch. -/
def epochChanCapacity : Nat := 1

/-- Embeds the receiver goroutine of framework.watchEpoch over a response
sequence: the epochs pushed into the epoch channel, paired with whether
a fatal parse abort happened (which ends the node). -/
def epochWatchOutputs : List EtcdResponse → List Nat × Bool
  | [] => ([], false)
  | r :: rest =>
    if r.action ≠ "compareAndSwap" ∧ r.action ≠ "set" then epochWatchOutputs rest
    else
      match goParseUint r.value 10 with
      | none => ([], true)
      | some e =>
        let tail := epochWatchOutputs rest
        (e :: tail.fst, tail.snd)

/-! ## Neighbor watchers (framework.watchAll) and meta flags

watchAll(role, taskIDs) opens one watcher per neighbor.  For roleParent
the watch path is the parent neighbor ChildMeta key and the callback is
task.ParentMetaReady; for roleChild the path is the child neighbor
ParentMeta key and the callback is task.ChildMetaReady (roleNone
panics).  Each watcher goroutine skips responses whose action is not
set and otherwise invokes the callback with the neighbor ID and the
response value, in arrival order.  FlagMetaToParent / FlagMetaToChild
are plain Sets of the meta string at this node's own meta keys. -/

/-- A meta callback delivered to the local task. -/
inductive MetaCallback where
  | parentMetaReady (id : Nat) (value : String)
  | childMetaReady (id : Nat) (value : String)
deriving DecidableEq, Repr

/-- Embeds the watch-path choice of framework.watchAll: a watcher opened for
a parent neighbor watches that parent's ChildMeta key, one opened for a
child neighbor watches that child's ParentMeta key. -/
def watchAllPath (name : String) (who : taskRole) (taskID : Nat) : Option String :=
  match who with
  | .roleParent => some (ChildMetaPath name taskID)
  | .roleChild => some (ParentMetaPath name taskID)
  | .roleNone => none

/-- Embeds the per-watcher goroutine of framework.watchAll over a response
sequence: skip non-set actions, otherwise deliver the role's callback
with the watched ID and the response value. roleNone never reaches the
goroutine (watchAll panics on it at setup). -/
def watcherDispatch (who : taskRole) (taskID : Nat) : List EtcdResponse → List MetaCallback
  | [] => []
  | r :: rest =>
    if r.action ≠ "set" then watcherDispatch who taskID rest
    else
      match who with
      | .roleParent => .parentMetaReady taskID r.value :: watcherDispatch who taskID rest
      | .roleChild => .childMetaReady taskID r.value :: watcherDispatch who taskID rest
      | .roleNone => []

/-- Embeds framework.FlagMetaToParent: Set this node's ParentMeta key. -/
def FlagMetaToParent (name : String) (taskID : Nat) (meta : String) (st : Store) : Store :=
  storeSet st (ParentMetaPath name taskID) meta

/-- Embeds framework.FlagMetaToChild: Set this node's ChildMeta key. -/
def FlagMetaToChild (name : String) (taskID : Nat) (meta : String) (st : Store) : Store :=
  storeSet st (ChildMetaPath name taskID) meta

/-! ## Slot occupation (framework.occupyTask)

occupyTask lists the task directory and walks the entries in listing
order.  An entry whose basename does not parse (ParseUint base 0) is
skipped with a warning.  For a parsed ID the node attempts
CompareAndSwap(TaskMasterPath(name, id), listenerAddr, 0, "empty", 0);
the first success returns that ID, and when no attempt succeeds the
scan ends with the "no unassigned task found" error.  A failed swap
writes nothing, so the whole scan runs against the listed store
state. -/

/-- Outcome of occupyTask: the claimed ID with the updated store, or the
error with the untouched store. -/
inductive OccupyResult where
  | ok (id : Nat) (st : Store)
  | err (msg : String) (st : Store)

/-- Embeds the scan loop of framework.occupyTask over the directory entries
(the keys of the nodes listed under the task directory). -/
def occupyTaskLoop (name addr : String) (st : Store) : List String → OccupyResult
  | [] => .err "no unassigned task found" st
  | key :: rest =>
    match goParseUint (pathBase key) 0 with
    | none => occupyTaskLoop name addr st rest
    | some id =>
      match storeCAS st (TaskMasterPath name id) addr "empty" with
      | some st2 => .ok id st2
      | none => occupyTaskLoop name addr st rest

/-! ## Heartbeat (pkg/etcdutil/healthy.go)

Heartbeat loops: Set(TaskHealthyPath(name, taskID), "health",
computeTTL(interval)); a Set error is returned (aborting the node);
otherwise the loop sleeps for the interval or returns nil when stop
fires.  Durations are int64 nanoseconds; heartbeat intervals are
nonnegative, so they are modelled as Nat with time.Second = 10^9. -/

/-- Modelled from the spec: the etcdutil path helper TaskHealthyPath is not
among the provided sources (healthy.go calls it); spec section 4.1 lays
the liveness key out as /job/healthy/id, derived like the other keys. -/
def TaskHealthyPath (name : String) (taskID : Nat) : String :=
  pathJoin ["/", name, "healthy", toString taskID]

/-- Modelled from the spec: the etcdutil FreeTaskDir helper is not among the
provided sources (healthy.go calls it); spec section 4.1 lays the
failure markers out under /job/freetasks. -/
def FreeTaskDir (name : String) : String :=
  pathJoin ["/", name, "freetasks"]

/-- Embeds computeTTL of healthy.go: 3 when the interval is under one
second, else 3 times the whole seconds of the interval. -/
def computeTTL (interval : Nat) : Nat :=
  if interval / 1000000000 < 1 then 3 else 3 * (interval / 1000000000)

/-- An etcd Set operation performed by the heartbeat loop. -/
structure SetOp where
  key : String
  value : String
  ttl : Nat
deriving DecidableEq, Repr

/-- Outcome of one heartbeat iteration: the Set fails with an error, or it
succeeds and then either the interval timer or the stop channel fires. -/
inductive HBEvent where
  | setFail (msg : String)
  | tick
  | stopped
deriving DecidableEq, Repr

/-- Embeds etcdutil.Heartbeat over an iteration-outcome sequence: the Sets
it attempts, and the returned error (none while looping or after a
stop). -/
def Heartbeat (name : String) (taskID : Nat) (interval : Nat) :
    List HBEvent → List SetOp × Option String
  | [] => ([], none)
  | ev :: rest =>
    let op : SetOp := ⟨TaskHealthyPath name taskID, "health", computeTTL interval⟩
    match ev with
    | .setFail msg => ([op], some msg)
    | .stopped => ([op], none)
    | .tick =>
      let tail := Heartbeat name taskID interval rest
      (op :: tail.fst, tail.snd)

/-! ## WaitFreeTask (pkg/etcdutil/healthy.go)

WaitFreeTask reads the free-task directory.  When entries exist it
picks index rand.Intn(total) (uniform on 0..total-1, modelled as an
explicit index) and returns the ParseUint(base 0) of the chosen entry
basename.  When the directory is empty, a goroutine watches the
directory from EtcdIndex+1, re-watching until a response with action
set arrives (a watch error ends the goroutine silently); the main
select returns the WaitFailure timeout error after 10 seconds when
nothing is delivered, and otherwise parses the delivered key basename
with ParseUint(base 10). -/

/-- One round of the watch goroutine in WaitFreeTask: a watch error, or a
response with its action, key and index. -/
inductive WatchResult where
  | werr
  | resp (action : String) (key : String) (etcdIndex : Nat)
deriving DecidableEq, Repr

/-- Embeds the 10 * time.Second select timeout of WaitFreeTask, in
nanoseconds. -/
def waitFreeTaskTimeoutNs : Nat := 10 * 1000000000

/-- Embeds the initial watch index of WaitFreeTask: the EtcdIndex of the
directory read, plus one. -/
def waitFreeTaskWatchIndex (etcdIndex : Nat) : Nat := etcdIndex + 1

/-- The key delivered by the watch goroutine of WaitFreeTask: the first
response with action set; a watch error ends the goroutine, after which
nothing is ever delivered. -/
def firstSetKey : List WatchResult → Option String
  | [] => none
  | .werr :: _ => none
  | .resp a k _ :: rest => if a = "set" then some k else firstSetKey rest

/-- Embeds etcdutil.WaitFreeTask: nodes are the entry keys of the free-task
directory read, ri the rand.Intn draw, results the watch rounds seen in
the empty case.  Parse failures surface the strconv error. -/
def WaitFreeTask (nodes : List String) (ri : Nat) (results : List WatchResult) :
    Except String Nat :=
  if 0 < nodes.length then
    match goParseUint (pathBase (nodes.getD ri "")) 0 with
    | some id => .ok id
    | none => .error "invalid syntax"
  else
    match firstSetKey results with
    | none => .error "WaitFailure timeout!"
    | some key =>
      match goParseUint (pathBase key) 10 with
      | some id => .ok id
      | none => .error "invalid syntax"

/-! ## Concrete fixtures

Small concrete instances used to evaluate the embedded definitions on
explicit inputs. -/

/-- A topology with parent 1 and child 2 at every epoch. -/
def exTopology : Topology :=
  ⟨fun _ => [1], fun _ => [2]⟩

/-- A task whose serve methods return distinguishable byte bodies. -/
def exTask : Task :=
  ⟨fun i s => [1, i, s.length], fun i s => [2, i, s.length]⟩

/-- A framework node of job tj occupying slot 5 at epoch 0. -/
def exFramework : Framework :=
  ⟨"tj", 5, 0, exTopology, exTask⟩

/-- The store with no keys. -/
def emptyStore : Store := fun _ => none

/-- A store whose epoch key for job tj holds the string 3. -/
def stEpoch3 : Store :=
  fun k => if k = JobEpochPath "tj" then some "3" else none

/-- A store for job tj where slot 0 is occupied and slot 1 is unassigned. -/
def stSlots : Store :=
  fun k =>
    if k = TaskMasterPath "tj" 0 then some "10.0.0.1:7"
    else if k = TaskMasterPath "tj" 1 then some "empty"
    else none

/-! ## Theorems -/

/-- parentOrChild classifies a member of the parent list as roleParent. -/
theorem parentOrChild_parent {f : Framework} {id : Nat}
    (h : id ∈ f.topology.GetParents f.epoch) : parentOrChild f id = .roleParent := by
  simp [parentOrChild, h]

/-- parentOrChild classifies a non-parent member of the child list as
roleChild. -/
theorem parentOrChild_child {f : Framework} {id : Nat}
    (hp : id ∉ f.topology.GetParents f.epoch) (hc : id ∈ f.topology.GetChildren f.epoch) :
    parentOrChild f id = .roleChild := by
  simp [parentOrChild, hp, hc]

/-- parentOrChild classifies a task in neither neighbor list as roleNone. -/
theorem parentOrChild_none {f : Framework} {id : Nat}
    (hp : id ∉ f.topology.GetParents f.epoch) (hc : id ∉ f.topology.GetChildren f.epoch) :
    parentOrChild f id = .roleNone := by
  simp [parentOrChild, hp, hc]

/-- C1 counterexample: the handler does not parse taskID as a decimal
uint64.  The query value 0x1 has no decimal uint64 reading, so the
claim demands a 400 response; the handler parses it with ParseUint base
0, obtains caller 1, a parent at the current epoch, and answers 200
with the ServeAsChild body. -/
theorem meritop_c1_counterexample :
    goParseUint "0x1" 10 = none ∧
    serveHTTP exFramework
        ⟨dataRequestPath, [(dataRequestTaskIDKey, "0x1"), (dataRequestReqKey, "m")]⟩ =
      HTTPResponse.ok [2, 1, 1] := by
  exact ⟨by decide, by decide⟩

/-- C1 (amended): for every GET handled by the data-request handler, a
path other than /datareq gets 400 bad path; otherwise, when the taskID
query value does not parse under ParseUint(s, 0, 64) (Go auto-detected
base) the response is 400; otherwise, with callerID the parsed value,
a parent of this task at the current epoch gets 200 with the bytes of
task.ServeAsChild(callerID, req), a child gets 200 with the bytes of
task.ServeAsParent(callerID, req), and any other caller gets 400. -/
theorem meritop_c1_route (f : Framework) (r : HTTPRequest) :
    (r.path ≠ dataRequestPath → serveHTTP f r = .badRequest "bad path") ∧
    (r.path = dataRequestPath →
      goParseUint (queryGet r.query dataRequestTaskIDKey) 0 = none →
      serveHTTP f r = .badRequest "taskID couldn\x27t be parsed") ∧
    (∀ fromID, r.path = dataRequestPath →
      goParseUint (queryGet r.query dataRequestTaskIDKey) 0 = some fromID →
      ((fromID ∈ f.topology.GetParents f.epoch →
          serveHTTP f r = .ok (f.task.ServeAsChild fromID (queryGet r.query dataRequestReqKey))) ∧
        (fromID ∉ f.topology.GetParents f.epoch → fromID ∈ f.topology.GetChildren f.epoch →
          serveHTTP f r = .ok (f.task.ServeAsParent fromID (queryGet r.query dataRequestReqKey))) ∧
        (fromID ∉ f.topology.GetParents f.epoch → fromID ∉ f.topology.GetChildren f.epoch →
          serveHTTP f r = .badRequest "taskID isn\x27t a parent or child of this task"))) := by
  refine ⟨fun hpath => by simp [serveHTTP, hpath], fun hpath hparse => ?_, ?_⟩
  · simp [serveHTTP, hpath, hparse]
  · intro fromID hpath hparse
    refine ⟨fun hmem => ?_, fun hp hc => ?_, fun hp hc => ?_⟩
    · simp [serveHTTP, hpath, hparse, parentOrChild_parent hmem]
    · simp [serveHTTP, hpath, hparse, parentOrChild_child hp hc]
    · simp [serveHTTP, hpath, hparse, parentOrChild_none hp hc]

/-- C1 witness: the amended routing theorem evaluated on a child caller
with a decimal taskID. -/
theorem meritop_c1_route_witness :
    serveHTTP exFramework
        ⟨dataRequestPath, [(dataRequestTaskIDKey, "2"), (dataRequestReqKey, "mm")]⟩ =
      HTTPResponse.ok [1, 2, 2] := by
  exact ((meritop_c1_route exFramework
    ⟨dataRequestPath, [(dataRequestTaskIDKey, "2"), (dataRequestReqKey, "mm")]⟩).2.2 2 rfl
    (by decide)).2.1 (by decide) (by decide)

/-- C2: IncEpoch at local epoch E performs compare-and-swap on the job
epoch key expecting the decimal string of E and writing the decimal
string of E+1; when the stored value differs from the decimal string of
E the swap fails, the node aborts fatally, nothing is written, and the
epoch only advances when the caller's local epoch matches the global
one, so a stale node never advances the global epoch. -/
theorem meritop_c2_incEpoch (name : String) (epoch : Nat) (st : Store)
    (hlt : epoch + 1 < 2 ^ 64) :
    (st (JobEpochPath name) = some (toString epoch) →
      IncEpoch name epoch st =
        .ok (storeSet st (JobEpochPath name) (toString (epoch + 1)))) ∧
    (st (JobEpochPath name) ≠ some (toString epoch) →
      IncEpoch name epoch st = .fatal) ∧
    (∀ st2, IncEpoch name epoch st = .ok st2 →
      st (JobEpochPath name) = some (toString epoch)) := by
  have hmod : (epoch + 1) % 18446744073709551616 = epoch + 1 :=
    Nat.mod_eq_of_lt (by norm_num at hlt ⊢; exact hlt)
  refine ⟨fun h => ?_, fun h => ?_, fun st2 h => ?_⟩
  · simp [IncEpoch, storeCAS, h, hmod]
  · simp [IncEpoch, storeCAS, h]
  · by_cases hc : st (JobEpochPath name) = some (toString epoch)
    · exact hc
    · simp [IncEpoch, storeCAS, hc] at h

/-- C2 witness: IncEpoch at local epoch 3 against a store whose epoch key
holds the string 3 swaps it to the string 4. -/
theorem meritop_c2_incEpoch_witness :
    IncEpoch "tj" 3 stEpoch3 =
      .ok (storeSet stEpoch3 (JobEpochPath "tj") (toString (3 + 1))) := by
  exact (meritop_c2_incEpoch "tj" 3 stEpoch3 (by decide)).1 (by decide)

/-- C3: after task.Init returns, the main loop of Start calls
task.SetEpoch with the startup epoch before it blocks on the epoch
channel (for any sequence of channel receipts, including none), and
every loop iteration entered at a non-sentinel epoch E begins with
SetEpoch(E). -/
theorem meritop_c3_setEpochFirst (tid e0 : Nat) (events : List LoopEvent)
    (h : e0 ≠ maxUint64) :
    (startCalls tid e0 events).take 2 = [.initCall tid, .setEpoch e0] ∧
    (∀ e rest, e ≠ maxUint64 → (mainLoop e rest).head? = some (.setEpoch e)) := by
  have hhead : ∀ e rest, e ≠ maxUint64 → (mainLoop e rest).head? = some (.setEpoch e) := by
    intro e rest he
    cases rest with
    | nil => simp [mainLoop, he]
    | cons ev tl => simp [mainLoop, he]
  refine ⟨?_, hhead⟩
  have := hhead e0 events h
  cases hm : mainLoop e0 events with
  | nil => simp [hm] at this
  | cons a tl =>
    rw [hm] at this
    simp only [List.head?] at this
    simp [startCalls, hm, Option.some_inj.mp this]

/-- C3 witness: the startup epoch 0 receives SetEpoch right after Init even
when no epoch event ever arrives. -/
theorem meritop_c3_setEpochFirst_witness :
    (startCalls 5 0 []).take 2 = [.initCall 5, .setEpoch 0] := by
  exact (meritop_c3_setEpochFirst 5 0 [] (by decide)).1

/-- C4: the epoch watcher skips responses whose action is neither set nor
compareAndSwap; an accepted response is parsed as a decimal unsigned
64-bit integer, a parse failure aborts the node fatally, and a parsed
epoch is published into the epoch channel, which has capacity 1. -/
theorem meritop_c4_epochWatch (r : EtcdResponse) (rest : List EtcdResponse) :
    (r.action ≠ "set" → r.action ≠ "compareAndSwap" →
      epochWatchOutputs (r :: rest) = epochWatchOutputs rest) ∧
    (∀ e, (r.action = "set" ∨ r.action = "compareAndSwap") →
      goParseUint r.value 10 = some e →
      epochWatchOutputs (r :: rest) =
        (e :: (epochWatchOutputs rest).fst, (epochWatchOutputs rest).snd)) ∧
    ((r.action = "set" ∨ r.action = "compareAndSwap") →
      goParseUint r.value 10 = none →
      epochWatchOutputs (r :: rest) = ([], true)) ∧
    epochChanCapacity = 1 := by
  refine ⟨fun h1 h2 => ?_, fun e ha hp => ?_, fun ha hp => ?_, rfl⟩
  · simp [epochWatchOutputs, h1, h2]
  · rcases ha with ha | ha <;> simp [epochWatchOutputs, ha, hp]
  · rcases ha with ha | ha <;> simp [epochWatchOutputs, ha, hp]

/-- C4 witness: a set response carrying the value 7 publishes epoch 7. -/
theorem meritop_c4_epochWatch_witness :
    epochWatchOutputs [⟨"set", "/tj/epoch", "7", 2⟩] = ([7], false) := by
  exact (meritop_c4_epochWatch ⟨"set", "/tj/epoch", "7", 2⟩ []).2.1 7 (Or.inl rfl) (by decide)

/-- C5 counterexample: the callback delivered for a parent's meta flag is
not ChildMetaReady.  Node p = 0 flags meta m to its children, which
lands on p's ChildMeta key; a child watching p (the roleParent watcher,
whose watch path is exactly that key) turns the set event into
ParentMetaReady(0, m), not the claimed ChildMetaReady(0, m). -/
theorem meritop_c5_counterexample :
    FlagMetaToChild "tj" 0 "m" emptyStore (ChildMetaPath "tj" 0) = some "m" ∧
    watchAllPath "tj" .roleParent 0 = some (ChildMetaPath "tj" 0) ∧
    watcherDispatch .roleParent 0 [⟨"set", ChildMetaPath "tj" 0, "m", 3⟩] =
      [.parentMetaReady 0 "m"] ∧
    [MetaCallback.parentMetaReady 0 "m"] ≠ [MetaCallback.childMetaReady 0 "m"] := by
  exact ⟨by simp [FlagMetaToChild, storeSet], rfl, by decide, by decide⟩

/-- C5 (amended): FlagMetaToChild(s) on task p writes s to p's ChildMeta
key and changes nothing else; a task c with p among its parents watches
exactly that key, its watcher ignores events whose action is not set,
and every set event with value s is delivered to c's task as the
callback ParentMetaReady(p, s). -/
theorem meritop_c5_metaFlow (name : String) (p : Nat) (s : String) (st : Store) :
    FlagMetaToChild name p s st (ChildMetaPath name p) = some s ∧
    (∀ k, k ≠ ChildMetaPath name p → FlagMetaToChild name p s st k = st k) ∧
    watchAllPath name .roleParent p = some (ChildMetaPath name p) ∧
    (∀ r rest, r.action = "set" →
      watcherDispatch .roleParent p (r :: rest) =
        .parentMetaReady p r.value :: watcherDispatch .roleParent p rest) ∧
    (∀ r rest, r.action ≠ "set" →
      watcherDispatch .roleParent p (r :: rest) = watcherDispatch .roleParent p rest) := by
  refine ⟨by simp [FlagMetaToChild, storeSet], fun k hk => ?_, rfl,
    fun r rest hr => ?_, fun r rest hr => ?_⟩
  · simp [FlagMetaToChild, storeSet, hk]
  · simp [watcherDispatch, hr]
  · simp [watcherDispatch, hr]

/-- C5 witness: the amended meta-flow theorem evaluated for job tj, parent
0 and meta value gm: the write is observable at the ChildMeta key and a
set event delivers ParentMetaReady(0, gm). -/
theorem meritop_c5_metaFlow_witness :
    FlagMetaToChild "tj" 0 "gm" emptyStore (ChildMetaPath "tj" 0) = some "gm" ∧
    watcherDispatch .roleParent 0 [⟨"set", ChildMetaPath "tj" 0, "gm", 4⟩] =
      [.parentMetaReady 0 "gm"] := by
  refine ⟨(meritop_c5_metaFlow "tj" 0 "gm" emptyStore).1, ?_⟩
  have h := (meritop_c5_metaFlow "tj" 0 "gm" emptyStore).2.2.2.1
    ⟨"set", ChildMetaPath "tj" 0, "gm", 4⟩ [] rfl
  simpa using h

/-- C6: occupyTask scans the listed task-directory entries in order,
attempting for each parsed entry ID the compare-and-swap of the slot
key tasks/id/0 from the value empty to this node's listener address.
The scan reports the no-unassigned-task error exactly when no entry can
succeed, and otherwise claims the first entry whose swap succeeds,
writing the address into that slot. -/
theorem meritop_c6_occupyTask (name addr : String) (st : Store) :
    (∀ entries, occupyTaskLoop name addr st entries = .err "no unassigned task found" st ↔
      ∀ key ∈ entries, ∀ id, goParseUint (pathBase key) 0 = some id →
        st (TaskMasterPath name id) ≠ some "empty") ∧
    (∀ pre key post id,
      (∀ k ∈ pre, ∀ i, goParseUint (pathBase k) 0 = some i →
        st (TaskMasterPath name i) ≠ some "empty") →
      goParseUint (pathBase key) 0 = some id →
      st (TaskMasterPath name id) = some "empty" →
      occupyTaskLoop name addr st (pre ++ key :: post) =
        .ok id (storeSet st (TaskMasterPath name id) addr)) := by
  constructor
  · intro entries
    induction entries with
    | nil => simp [occupyTaskLoop]
    | cons key rest ih =>
      rw [List.forall_mem_cons]
      cases hp : goParseUint (pathBase key) 0 with
      | none =>
        simp only [occupyTaskLoop, hp]
        rw [ih]
        exact ⟨fun h => ⟨fun id hid => Option.noConfusion hid, h⟩, fun h => h.2⟩
      | some id =>
        cases hc : storeCAS st (TaskMasterPath name id) addr "empty" with
        | some st2 =>
          have hm : st (TaskMasterPath name id) = some "empty" := by
            by_contra hm
            simp [storeCAS, hm] at hc
          simp only [occupyTaskLoop, hp, hc]
          constructor
          · intro h
            exact absurd h (by simp)
          · intro h
            exact absurd hm (h.1 id rfl)
        | none =>
          have hm : st (TaskMasterPath name id) ≠ some "empty" := by
            intro hm
            simp [storeCAS, hm] at hc
          simp only [occupyTaskLoop, hp, hc]
          rw [ih]
          constructor
          · intro h
            refine ⟨?_, h⟩
            intro i hi
            rw [← Option.some_inj.mp hi]
            exact hm
          · exact fun h => h.2
  · intro pre key post id hpre hp hm
    induction pre with
    | nil => simp [occupyTaskLoop, hp, storeCAS, hm]
    | cons k0 rest ih =>
      have hk0 : ∀ i, goParseUint (pathBase k0) 0 = some i →
          st (TaskMasterPath name i) ≠ some "empty" :=
        fun i hi => hpre k0 (List.mem_cons_self k0 rest) i hi
      have hrest : ∀ k ∈ rest, ∀ i, goParseUint (pathBase k) 0 = some i →
          st (TaskMasterPath name i) ≠ some "empty" :=
        fun k hk i hi => hpre k (List.mem_cons_of_mem _ hk) i hi
      cases hp0 : goParseUint (pathBase k0) 0 with
      | none =>
        simp only [List.cons_append, occupyTaskLoop, hp0]
        exact ih hrest
      | some i0 =>
        have hne := hk0 i0 hp0
        simp only [List.cons_append, occupyTaskLoop, hp0, storeCAS, if_neg hne]
        exact ih hrest

/-- C6 witness: against a store where slot 0 of job tj is occupied and
slot 1 holds empty, the scan over the slot-0 then slot-1 entries claims
slot 1 and writes the listener address there. -/
theorem meritop_c6_occupyTask_witness :
    occupyTaskLoop "tj" "10.0.0.2:9" stSlots ["/tj/tasks/0", "/tj/tasks/1"] =
      .ok 1 (storeSet stSlots (TaskMasterPath "tj" 1) "10.0.0.2:9") := by
  have h := (meritop_c6_occupyTask "tj" "10.0.0.2:9" stSlots).2
    ["/tj/tasks/0"] "/tj/tasks/1" [] 1 ?_ (by decide) (by decide)
  · exact h
  · intro k hk i hi
    have hk0 : k = "/tj/tasks/0" := by simpa using hk
    subst hk0
    have : i = 0 := by
      have h0 : goParseUint (pathBase "/tj/tasks/0") 0 = some 0 := by decide
      rw [h0] at hi
      exact (Option.some_inj.mp hi).symm
    subst this
    decide

/-- C7: every Set the heartbeat loop performs targets healthy/id with the
value health and TTL max(3, 3 times the whole seconds of the interval);
a returned error is always one reported by a Set of the loop; and a run
of n interval expirations followed by the stop signal performs exactly
n+1 such Sets and returns no error. -/
theorem meritop_c7_heartbeat (name : String) (taskID interval : Nat)
    (events : List HBEvent) :
    computeTTL interval = max 3 (3 * (interval / 1000000000)) ∧
    (∀ op ∈ (Heartbeat name taskID interval events).fst,
      op = ⟨TaskHealthyPath name taskID, "health", computeTTL interval⟩) ∧
    (∀ msg, (Heartbeat name taskID interval events).snd = some msg →
      HBEvent.setFail msg ∈ events) ∧
    (∀ n, Heartbeat name taskID interval (List.replicate n .tick ++ [.stopped]) =
      (List.replicate (n + 1) ⟨TaskHealthyPath name taskID, "health", computeTTL interval⟩,
        none)) := by
  refine ⟨?_, ?_, ?_, ?_⟩
  · unfold computeTTL
    rcases Nat.lt_or_ge (interval / 1000000000) 1 with h | h
    · rw [if_pos h]
      omega
    · rw [if_neg (by omega)]
      omega
  · intro op hop
    induction events with
    | nil => simp [Heartbeat] at hop
    | cons ev rest ih =>
      cases ev with
      | setFail msg =>
        simp only [Heartbeat, List.mem_singleton] at hop
        exact hop
      | stopped =>
        simp only [Heartbeat, List.mem_singleton] at hop
        exact hop
      | tick =>
        simp only [Heartbeat, List.mem_cons] at hop
        rcases hop with hop | hop
        · exact hop
        · exact ih hop
  · intro msg
    induction events with
    | nil => simp [Heartbeat]
    | cons ev rest ih =>
      cases ev with
      | setFail m =>
        simp only [Heartbeat]
        intro h
        rw [Option.some_inj.mp h]
        exact List.mem_cons_self _ _
      | stopped => simp [Heartbeat]
      | tick =>
        simp only [Heartbeat]
        intro h
        exact List.mem_cons_of_mem _ (ih h)
  · intro n
    induction n with
    | zero => simp [Heartbeat]
    | succ k ih =>
      rw [List.replicate_succ, List.cons_append]
      simp only [Heartbeat, ih]
      simp [List.replicate_succ]

/-- C7 witness: over a 2.5-second interval the heartbeat performs two Sets
of healthy/4 with value health and TTL 6 when one tick precedes the
stop signal. -/
theorem meritop_c7_heartbeat_witness :
    computeTTL 2500000000 = max 3 (3 * (2500000000 / 1000000000)) ∧
    Heartbeat "tj" 4 2500000000 [.tick, .stopped] =
      (List.replicate 2 ⟨TaskHealthyPath "tj" 4, "health", computeTTL 2500000000⟩, none) := by
  exact ⟨(meritop_c7_heartbeat "tj" 4 2500000000 []).1,
    (meritop_c7_heartbeat "tj" 4 2500000000 []).2.2.2 1⟩

/-- C8: WaitFreeTask over a non-empty free-task directory returns the
parsed ID of the entry at the random index (rand.Intn draws uniformly
over the directory size); over an empty directory it watches from the
read index plus one, returns the parsed ID of the first delivered set
event, and reports the WaitFailure timeout error when no set event is
delivered, with the select timeout fixed at 10 seconds. -/
theorem meritop_c8_waitFreeTask (nodes : List String) (ri : Nat)
    (results : List WatchResult) (etcdIndex : Nat) :
    (∀ id, nodes ≠ [] → ri < nodes.length →
      goParseUint (pathBase (nodes.getD ri "")) 0 = some id →
      WaitFreeTask nodes ri results = .ok id) ∧
    (nodes = [] → firstSetKey results = none →
      WaitFreeTask nodes ri results = .error "WaitFailure timeout!") ∧
    (∀ key id, nodes = [] → firstSetKey results = some key →
      goParseUint (pathBase key) 10 = some id →
      WaitFreeTask nodes ri results = .ok id) ∧
    waitFreeTaskTimeoutNs = 10 * 1000000000 ∧
    waitFreeTaskWatchIndex etcdIndex = etcdIndex + 1 := by
  refine ⟨fun id hne hri hp => ?_, fun hnil hns => ?_, fun key id hnil hs hp => ?_, rfl, rfl⟩
  · have hlen : 0 < nodes.length := List.length_pos.mpr hne
    unfold WaitFreeTask
    rw [if_pos hlen, hp]
  · subst hnil
    simp [WaitFreeTask, hns]
  · subst hnil
    simp [WaitFreeTask, hs, hp]

/-- C8 witness: a singleton directory returns its parsed entry 3, and an
empty directory whose watch only sees an expire event times out. -/
theorem meritop_c8_waitFreeTask_witness :
    WaitFreeTask ["/tj/freetasks/3"] 0 [] = .ok 3 ∧
    WaitFreeTask [] 0 [.resp "expire" "/tj/freetasks/3" 5] =
      .error "WaitFailure timeout!" := by
  exact ⟨(meritop_c8_waitFreeTask ["/tj/freetasks/3"] 0 [] 0).1 3 (by decide) (by decide)
      (by decide),
    (meritop_c8_waitFreeTask [] 0 [.resp "expire" "/tj/freetasks/3" 5] 0).2.1 rfl (by decide)⟩

/-- C10: a task-directory entry whose basename does not parse as an
unsigned integer is skipped wherever it sits in the listing: the scan
result over any listing containing it equals the result over the same
listing without it, so it never prevents claiming a later valid slot
and never by itself causes the no-unassigned-task error. -/
theorem meritop_c10_skipCorrupt (name addr : String) (st : Store) (bad : String)
    (hbad : goParseUint (pathBase bad) 0 = none) :
    ∀ pre post, occupyTaskLoop name addr st (pre ++ bad :: post) =
      occupyTaskLoop name addr st (pre ++ post) := by
  intro pre post
  induction pre with
  | nil => simp [occupyTaskLoop, hbad]
  | cons k0 rest ih =>
    rw [List.cons_append, List.cons_append]
    cases hp0 : goParseUint (pathBase k0) 0 with
    | none => simp only [occupyTaskLoop, hp0, ih]
    | some id =>
      cases hc : storeCAS st (TaskMasterPath name id) addr "empty" with
      | some st2 => simp only [occupyTaskLoop, hp0, hc]
      | none => simp only [occupyTaskLoop, hp0, hc, ih]

/-- C10 witness: a listing holding only a corrupted entry scans exactly
like the empty listing, ending in the no-unassigned-task error. -/
theorem meritop_c10_skipCorrupt_witness :
    occupyTaskLoop "tj" "10.0.0.2:9" emptyStore ["/tj/tasks/bad"] =
      occupyTaskLoop "tj" "10.0.0.2:9" emptyStore [] := by
  exact meritop_c10_skipCorrupt "tj" "10.0.0.2:9" emptyStore "/tj/tasks/bad" (by decide) [] []

end Meritop
